import Mathlib

/-!
Verification development for the download-manager backend.

The definitions below are shallow embeddings of the Python sources:
`app/core/dedupe.py` (`DedupeService`), `app/core/redis.py`
(`RedisJobStore.save_progress`), `app/services/cache_service.py`
(`CacheService`), `app/services/job_service.py` (job lifecycle) and
`app/services/download_service.py` (`start_download`).

The shared key-value store is modelled as an association list from string
keys to values together with an optional absolute expiry time; reads
respect expiry exactly as the remote store does (an expired key behaves
as absent).  Machine clocks are natural numbers (seconds); the fractional
thresholds of the cache quota (90% / 80%) are embedded as exact rationals
via cross multiplication, which agrees with the Python float comparison
for every realistic quota value.
-/

set_option autoImplicit false

namespace MusicBE

/-! ## A tiny expiring key-value store (the subset of Redis the code uses) -/

/-- One stored entry: value and optional absolute expiry instant.
`none` means the key has no TTL. -/
abbrev KVStore := List (String × String × Option Nat)

/-- Raw association-list lookup (first entry wins; `rset` keeps keys unique). -/
def kvFind : KVStore → String → Option (String × Option Nat)
  | [], _ => none
  | (k, v, e) :: rest, key => if k = key then some (v, e) else kvFind rest key

/-- Remove every entry stored under `key`. -/
def kvErase : KVStore → String → KVStore
  | [], _ => []
  | (k, v, e) :: rest, key =>
      if k = key then kvErase rest key else (k, v, e) :: kvErase rest key

/-- Store `value` under `key` with expiry `e`, replacing any previous entry. -/
def kvSet (s : KVStore) (key value : String) (e : Option Nat) : KVStore :=
  (key, value, e) :: kvErase s key

/-- Redis `GET key` at time `t`: an entry whose expiry has passed reads as absent. -/
def kvGet (s : KVStore) (t : Nat) (key : String) : Option String :=
  match kvFind s key with
  | some (v, some e) => if t < e then some v else none
  | some (v, none) => some v
  | none => none

/-- Redis `SETNX key value`: set only if the key is currently absent (or expired);
returns whether the set happened, plus the new store. -/
def kvSetnx (s : KVStore) (t : Nat) (key value : String) : Bool × KVStore :=
  match kvGet s t key with
  | some _ => (false, s)
  | none => (true, kvSet s key value none)

/-- Redis `EXPIRE key ttl` at time `t`: set the expiry of a live key to `t + ttl`. -/
def kvExpire (s : KVStore) (t : Nat) (key : String) (ttl : Nat) : KVStore :=
  match kvGet s t key with
  | some v => kvSet s key v (some (t + ttl))
  | none => s

/-- Redis `SETEX key ttl value` at time `t`. -/
def kvSetex (s : KVStore) (t : Nat) (key : String) (ttl : Nat) (value : String) : KVStore :=
  kvSet s key value (some (t + ttl))

/-! Basic lookup lemmas. -/

theorem kvFind_erase_ne (s : KVStore) (k k' : String) (h : k ≠ k') :
    kvFind (kvErase s k') k = kvFind s k := by
  induction s with
  | nil => rfl
  | cons hd tl ih =>
      obtain ⟨a, v, e⟩ := hd
      by_cases ha : a = k'
      · have hak : ¬ a = k := fun hak => h (by rw [← hak]; exact ha)
        simp only [kvErase, if_pos ha, kvFind, if_neg hak, ih]
      · by_cases hak : a = k
        · simp only [kvErase, if_neg ha, kvFind, if_pos hak]
        · simp only [kvErase, if_neg ha, kvFind, if_neg hak, ih]

theorem kvGet_set_self (s : KVStore) (t : Nat) (k v : String) (e : Option Nat) :
    kvGet (kvSet s k v e) t k =
      match e with
      | some ex => if t < ex then some v else none
      | none => some v := by
  cases e <;> simp [kvGet, kvSet, kvFind]

theorem kvGet_set_ne (s : KVStore) (t : Nat) (k k' v : String) (e : Option Nat)
    (h : k ≠ k') : kvGet (kvSet s k' v e) t k = kvGet s t k := by
  have h' : ¬ k' = k := fun hh => h hh.symm
  unfold kvGet kvSet
  rw [kvFind, if_neg h', kvFind_erase_ne s k k' h]

theorem kvGet_erase_ne (s : KVStore) (t : Nat) (k k' : String) (h : k ≠ k') :
    kvGet (kvErase s k') t k = kvGet s t k := by
  unfold kvGet
  rw [kvFind_erase_ne s k k' h]

theorem kvGet_erase_self (s : KVStore) (t : Nat) (k : String) :
    kvGet (kvErase s k) t k = none := by
  have hfind : kvFind (kvErase s k) k = none := by
    induction s with
    | nil => rfl
    | cons hd tl ih =>
        obtain ⟨a, v, e⟩ := hd
        by_cases ha : a = k
        · simpa [kvErase, if_pos ha] using ih
        · simp [kvErase, if_neg ha, kvFind, ha, ih]
  simp [kvGet, hfind]

/-! ## DedupeService (`app/core/dedupe.py`)

`acquire_lock` performs `SETNX lock_key job_id`; on success it runs
`EXPIRE lock_key DEDUPE_LOCK_TTL` and `SETEX job_key DEDUPE_LOCK_TTL job_id`.
`get_existing_job` reads the `job:` mapping; `release_lock` runs a Lua
script doing an atomic compare-and-delete of both keys.  The `enabled`
flag is `ENABLE_DEDUPLICATION and is_redis_available()`; when it is
false every operation short-circuits. -/

/-- Constant `DEDUPE_LOCK_TTL` from `app/setting/setting.py` (seconds). -/
def DEDUPE_LOCK_TTL : Nat := 3600

def lockKeyOf (contentKey : String) : String := "lock:" ++ contentKey

def jobKeyOf (contentKey : String) : String := "job:" ++ contentKey

/-- Embedding of `DedupeService.acquire_lock`, at clock instant `t`. -/
def acquire_lock (enabled : Bool) (s : KVStore) (t : Nat)
    (contentKey jobId : String) : Bool × KVStore :=
  if !enabled then (true, s)
  else
    match kvSetnx s t (lockKeyOf contentKey) jobId with
    | (true, s1) =>
        let s2 := kvExpire s1 t (lockKeyOf contentKey) DEDUPE_LOCK_TTL
        let s3 := kvSetex s2 t (jobKeyOf contentKey) DEDUPE_LOCK_TTL jobId
        (true, s3)
    | (false, _) => (false, s)

/-- Embedding of `DedupeService.get_existing_job`, at clock instant `t`. -/
def get_existing_job (enabled : Bool) (s : KVStore) (t : Nat)
    (contentKey : String) : Option String :=
  if !enabled then none
  else kvGet s t (jobKeyOf contentKey)

/-- Embedding of `DedupeService.release_lock`: the Lua compare-and-delete. -/
def release_lock (enabled : Bool) (s : KVStore) (t : Nat)
    (contentKey jobId : String) : Bool × KVStore :=
  if !enabled then (true, s)
  else if kvGet s t (lockKeyOf contentKey) = some jobId then
    (true, kvErase (kvErase s (lockKeyOf contentKey)) (jobKeyOf contentKey))
  else (false, s)

theorem lockKey_ne_jobKey (k k' : String) : lockKeyOf k ≠ jobKeyOf k' := by
  intro h
  have hd : ("lock:" ++ k).data = ("job:" ++ k').data := by
    simpa [lockKeyOf, jobKeyOf] using congrArg String.data h
  rw [String.data_append, String.data_append] at hd
  have hdd : ('l' :: 'o' :: 'c' :: 'k' :: ':' :: k.data)
      = ('j' :: 'o' :: 'b' :: ':' :: k'.data) := hd
  injection hdd with h1 _
  exact absurd h1 (by decide)

/-- After a successful `acquire_lock` the store maps both derived keys to the
owner with expiry `t + DEDUPE_LOCK_TTL`. -/
theorem acquire_lock_success_state (s : KVStore) (t : Nat) (k A : String)
    (s' : KVStore) (hacq : acquire_lock true s t k A = (true, s')) :
    s' = kvSet (kvSet (kvSet s (lockKeyOf k) A none) (lockKeyOf k) A
          (some (t + DEDUPE_LOCK_TTL))) (jobKeyOf k) A (some (t + DEDUPE_LOCK_TTL)) := by
  have hg : kvGet s t (lockKeyOf k) = none := by
    cases hv : kvGet s t (lockKeyOf k) with
    | none => rfl
    | some v => simp [acquire_lock, kvSetnx, hv] at hacq
  have h1 : kvGet (kvSet s (lockKeyOf k) A none) t (lockKeyOf k) = some A := by
    rw [kvGet_set_self]
  have hexp : kvExpire (kvSet s (lockKeyOf k) A none) t (lockKeyOf k) DEDUPE_LOCK_TTL
      = kvSet (kvSet s (lockKeyOf k) A none) (lockKeyOf k) A (some (t + DEDUPE_LOCK_TTL)) := by
    unfold kvExpire
    rw [h1]
  simp only [acquire_lock, Bool.not_true, Bool.false_eq_true, if_false, kvSetnx, hg,
    hexp, kvSetex, Prod.mk.injEq, true_and] at hacq
  exact hacq.symm

/-- C1: once `acquire(k, A)` has succeeded and while the lock is neither
released nor expired (`t' < t + DEDUPE_LOCK_TTL`), a second `acquire(k, B)`
for a distinct job returns false and changes nothing, and `existingOwner(k)`
(`get_existing_job`) returns `A`: at most one unexpired dedupe lock exists
per content key. -/
theorem dedupe_acquire_mutual_exclusion
    (s : KVStore) (t t' : Nat) (k A B : String) (s' : KVStore)
    (_hAB : A ≠ B)
    (hacq : acquire_lock true s t k A = (true, s'))
    (_ht : t ≤ t') (hexp : t' < t + DEDUPE_LOCK_TTL) :
    (acquire_lock true s' t' k B).1 = false ∧
      (acquire_lock true s' t' k B).2 = s' ∧
      get_existing_job true s' t' k = some A := by
  have hs' := acquire_lock_success_state s t k A s' hacq
  have hlkne : lockKeyOf k ≠ jobKeyOf k := lockKey_ne_jobKey k k
  have hjob : kvGet s' t' (jobKeyOf k) = some A := by
    rw [hs', kvGet_set_self]
    simp [hexp]
  have hlock : kvGet s' t' (lockKeyOf k) = some A := by
    rw [hs', kvGet_set_ne _ _ _ _ _ _ hlkne, kvGet_set_self]
    simp [hexp]
  refine ⟨?_, ?_, ?_⟩
  · simp [acquire_lock, kvSetnx, hlock]
  · simp [acquire_lock, kvSetnx, hlock]
  · simp [get_existing_job, hjob]

theorem dedupe_acquire_mutual_exclusion_witness :
    ("jobA" : String) ≠ "jobB" ∧
      acquire_lock true [] 0 "k" "jobA"
        = (true, [("job:k", "jobA", some 3600), ("lock:k", "jobA", some 3600)]) ∧
      (0 : Nat) ≤ 1 ∧ (1 : Nat) < 0 + DEDUPE_LOCK_TTL ∧
      ((acquire_lock true [("job:k", "jobA", some 3600), ("lock:k", "jobA", some 3600)]
          1 "k" "jobB").1 = false ∧
        (acquire_lock true [("job:k", "jobA", some 3600), ("lock:k", "jobA", some 3600)]
          1 "k" "jobB").2
          = [("job:k", "jobA", some 3600), ("lock:k", "jobA", some 3600)] ∧
        get_existing_job true [("job:k", "jobA", some 3600), ("lock:k", "jobA", some 3600)]
          1 "k" = some "jobA") :=
  ⟨by decide, by decide, by decide, by decide,
    dedupe_acquire_mutual_exclusion [] 0 1 "k" "jobA" "jobB"
      [("job:k", "jobA", some 3600), ("lock:k", "jobA", some 3600)]
      (by decide) (by decide) (by decide) (by decide)⟩

/-- C2: `release(k, J)` succeeds iff the currently stored owner equals `J`;
on success both the lock entry and the content-key-to-job mapping are
removed, and on an owner mismatch the call reports failure and leaves the
store unchanged. -/
theorem dedupe_release_compare_and_delete
    (s : KVStore) (t : Nat) (k J : String) :
    ((release_lock true s t k J).1 = true ↔ kvGet s t (lockKeyOf k) = some J) ∧
      (kvGet s t (lockKeyOf k) = some J →
        kvGet (release_lock true s t k J).2 t (lockKeyOf k) = none ∧
          kvGet (release_lock true s t k J).2 t (jobKeyOf k) = none) ∧
      (kvGet s t (lockKeyOf k) ≠ some J → release_lock true s t k J = (false, s)) := by
  by_cases hg : kvGet s t (lockKeyOf k) = some J
  · refine ⟨by simp [release_lock, hg], fun _ => ?_, fun hne => absurd hg hne⟩
    constructor
    · rw [release_lock]
      simp only [Bool.not_true, Bool.false_eq_true, if_false, if_pos hg]
      rw [kvGet_erase_ne _ _ _ _ (lockKey_ne_jobKey k k), kvGet_erase_self]
    · rw [release_lock]
      simp only [Bool.not_true, Bool.false_eq_true, if_false, if_pos hg]
      rw [kvGet_erase_self]
  · refine ⟨?_, fun hyes => absurd hyes hg, fun _ => by simp [release_lock, hg]⟩
    simp [release_lock, hg]

theorem dedupe_release_compare_and_delete_witness :
    kvGet [("lock:k", "jobA", (none : Option Nat))] 0 (lockKeyOf "k") = some "jobA" ∧
      kvGet (release_lock true [("lock:k", "jobA", none)] 0 "k" "jobA").2 0
          (lockKeyOf "k") = none ∧
      kvGet (release_lock true [("lock:k", "jobA", none)] 0 "k" "jobA").2 0
          (jobKeyOf "k") = none :=
  ⟨by decide,
    (dedupe_release_compare_and_delete [("lock:k", "jobA", none)] 0 "k" "jobA").2.1
      (by decide)⟩

/-- C10: in degraded mode (`enabled = false`, i.e. deduplication disabled or
the shared store unavailable at construction) every `acquire_lock` and
`release_lock` reports success without touching the store, and
`get_existing_job` reports absent: no mutual exclusion, no recorded state. -/
theorem dedupe_disabled_degraded_mode (s : KVStore) (t : Nat) (k j : String) :
    acquire_lock false s t k j = (true, s) ∧
      release_lock false s t k j = (true, s) ∧
      get_existing_job false s t k = none :=
  ⟨rfl, rfl, rfl⟩

/-! ## CacheService (`app/services/cache_service.py`)

State of the disk-cache tracking data: the `cache:bytes` counter (an
integer counter driven by `INCRBY`/`DECRBY`, so modelled as `Int`), the
`cache:lru` sorted set (member → last-access score), the `dir:<relpath>`
TTL markers (presence only — no claim in scope depends on their expiry),
the `lock:dir:<relpath>` removal guards, and the filesystem as a map from
absolute directory path to its recursive byte size (`_get_directory_size`
of an absent directory is 0, as `rglob` finds nothing). -/

structure CacheState where
  bytesCtr : Int
  lru : List (String × Nat)
  dirKeys : List String
  locks : List String
  fs : List (String × Nat)
deriving DecidableEq

/-- Recursive directory size: association lookup, 0 when the path does not
exist (matching `_get_directory_size` / the `full_path.exists()` guard). -/
def fsSize (fs : List (String × Nat)) (p : String) : Nat :=
  match fs.find? (fun q => q.1 = p) with
  | some q => q.2
  | none => 0

/-- Whether a directory exists on disk. -/
def fsExists (fs : List (String × Nat)) (p : String) : Bool :=
  (fs.find? (fun q => q.1 = p)).isSome

/-- Restatement of `String.isPrefixOf` on the character lists (the built-in is
byte-position based and opaque to kernel reduction). -/
def strIsPrefixOf (a b : String) : Bool :=
  a.data.isPrefixOf b.data

/-- Restatement of `String.drop` on the character lists. -/
def strDrop (s : String) (n : Nat) : String :=
  String.mk (s.data.drop n)

/-- Path join as in `pathlib`: an absolute right operand replaces the root. -/
def joinPath (root rel : String) : String :=
  if strIsPrefixOf "/" rel then rel else root ++ "/" ++ rel

/-- Embedding of `CacheService._get_relative_path`: `Path.relative_to` when the path lies
under the root (the root itself maps to "."), and — the `except ValueError`
branch — the *unchanged absolute path* when it does not. -/
def get_relative_path (root p : String) : String :=
  if p = root then "."
  else if strIsPrefixOf (root ++ "/") p then strDrop p (root.length + 1)
  else p

/-- Redis `zrange cache:lru 0 -1 withscores`: members in ascending score order.
Redis breaks equal-score ties lexicographically; the model keeps the stable
insertion-sort order for ties, which no claim in scope distinguishes. -/
def lruAscending (l : List (String × Nat)) : List (String × Nat) :=
  List.insertionSort (fun a b => a.2 ≤ b.2) l

instance : IsTotal (String × Nat) (fun a b => a.2 ≤ b.2) :=
  ⟨fun a b => Nat.le_total a.2 b.2⟩

instance : IsTrans (String × Nat) (fun a b => a.2 ≤ b.2) :=
  ⟨fun _ _ _ h1 h2 => Nat.le_trans h1 h2⟩

/-- Embedding of `CacheService._remove_directory_from_cache`.  The guard lock
(`SETNX lock:dir:<path>` … `DEL` in a `finally`) is acquired and released
within the call, so the net `locks` component is unchanged; when the lock is
already held the call returns `False` having changed nothing. -/
def remove_directory_from_cache (root : String) (st : CacheState)
    (dirPath : String) (removeFiles : Bool) : Bool × CacheState :=
  if dirPath ∈ st.locks then (false, st)
  else
    let full := joinPath root dirPath
    let size := fsSize st.fs full
    let fs' := if removeFiles then st.fs.filter (fun q => q.1 ≠ full) else st.fs
    (true, { st with
      bytesCtr := st.bytesCtr - size
      lru := st.lru.filter (fun q => q.1 ≠ dirPath)
      dirKeys := st.dirKeys.filter (fun q => q ≠ dirPath)
      fs := fs' })

/-- The eviction loop of `CacheService.enforce_quota`: walk the LRU-ascending
snapshot; before each entry stop if the running total is at or below the 80%
target (`current_bytes <= DISK_CACHE_MAX_BYTES * 0.8`, embedded exactly as
`10 * current ≤ 8 * maxBytes`); otherwise measure the directory's on-disk
size and attempt the guarded removal, decrementing the running total only
when the removal succeeded. -/
def enforce_quota_loop (root : String) (maxBytes : Int) :
    List (String × Nat) → Int → CacheState → Nat × CacheState
  | [], _, st => (0, st)
  | (p, _) :: rest, current, st =>
      if 10 * current ≤ 8 * maxBytes then (0, st)
      else
        let size := fsSize st.fs (joinPath root p)
        match remove_directory_from_cache root st p true with
        | (true, st') =>
            let r := enforce_quota_loop root maxBytes rest (current - size) st'
            (r.1 + 1, r.2)
        | (false, _) => enforce_quota_loop root maxBytes rest current st

/-- Embedding of `CacheService.enforce_quota`.  `maxBytes` is `DISK_CACHE_MAX_BYTES`; the
trigger `current_bytes <= DISK_CACHE_MAX_BYTES * DISK_CACHE_LRU_EVICTION_THRESHOLD`
(threshold 0.9) is embedded exactly as `10 * current ≤ 9 * maxBytes`. -/
def enforce_quota (root : String) (maxBytes : Int) (st : CacheState) : Nat × CacheState :=
  let current := st.bytesCtr
  if maxBytes ≤ 0 then (0, st)
  else if 10 * current ≤ 9 * maxBytes then (0, st)
  else enforce_quota_loop root maxBytes (lruAscending st.lru) current st

/-- Spec wording of `enforceQuota` (§4.5 / §8 of the spec), written
independently of the code: below the 90% threshold, no-op; otherwise remove
directories in ascending last-access order — recomputing each directory's
actual on-disk size immediately before its removal — until the total is at
or below the 80% target or the ordering is exhausted.  Removal here is
unconditional (the spec sentence has no notion of a skipped locked entry). -/
def enforceQuotaSpecLoop (root : String) (maxBytes : Int) :
    List (String × Nat) → Int → CacheState → Nat × CacheState
  | [], _, st => (0, st)
  | (p, _) :: rest, total, st =>
      if 10 * total ≤ 8 * maxBytes then (0, st)
      else
        let size := fsSize st.fs (joinPath root p)
        let st' : CacheState :=
          { st with
            bytesCtr := st.bytesCtr - size
            lru := st.lru.filter (fun q => q.1 ≠ p)
            dirKeys := st.dirKeys.filter (fun q => q ≠ p)
            fs := st.fs.filter (fun q => q.1 ≠ joinPath root p) }
        let r := enforceQuotaSpecLoop root maxBytes rest (total - size) st'
        (r.1 + 1, r.2)

/-- Spec-side `enforceQuota` (see `enforceQuotaSpecLoop`). -/
def enforceQuotaSpec (root : String) (maxBytes : Int) (st : CacheState) : Nat × CacheState :=
  if maxBytes ≤ 0 then (0, st)
  else if 10 * st.bytesCtr ≤ 9 * maxBytes then (0, st)
  else enforceQuotaSpecLoop root maxBytes (lruAscending st.lru) st.bytesCtr st

theorem enforce_quota_loop_no_locks (root : String) (maxBytes : Int)
    (l : List (String × Nat)) (current : Int) (st : CacheState)
    (hl : st.locks = []) :
    enforce_quota_loop root maxBytes l current st
      = enforceQuotaSpecLoop root maxBytes l current st := by
  induction l generalizing current st with
  | nil => rfl
  | cons hd rest ih =>
      obtain ⟨p, sc⟩ := hd
      by_cases htar : 10 * current ≤ 8 * maxBytes
      · simp [enforce_quota_loop, enforceQuotaSpecLoop, htar]
      · have hnotmem : ¬ p ∈ st.locks := by rw [hl]; exact List.not_mem_nil p
        have hrem : remove_directory_from_cache root st p true
            = (true, { st with
                bytesCtr := st.bytesCtr - fsSize st.fs (joinPath root p)
                lru := st.lru.filter (fun q => q.1 ≠ p)
                dirKeys := st.dirKeys.filter (fun q => q ≠ p)
                fs := st.fs.filter (fun q => q.1 ≠ joinPath root p) }) := by
          simp [remove_directory_from_cache, hnotmem]
        simp only [enforce_quota_loop, enforceQuotaSpecLoop, if_neg htar, hrem]
        rw [ih _ _ (by simp [hl])]

/-- C3: `enforce_quota` evicts nothing when the tracked byte total is at or
below the 90% threshold of the quota (in particular whenever it is below it);
when invoked above the threshold on a state with no directory removal locks
held, it behaves exactly as the eviction procedure as worded in the spec: it removes
directories in ascending last-access order — the traversal order is sorted by
last-access score — recomputing each on-disk size immediately before removal,
stopping as soon as the running total is at or below the 80% target or no
tracked directories remain. -/
theorem enforce_quota_matches_spec (root : String) (maxBytes : Int)
    (st : CacheState) (hlocks : st.locks = []) :
    (10 * st.bytesCtr ≤ 9 * maxBytes → enforce_quota root maxBytes st = (0, st)) ∧
      enforce_quota root maxBytes st = enforceQuotaSpec root maxBytes st ∧
      (lruAscending st.lru).Sorted (fun a b => a.2 ≤ b.2) := by
  refine ⟨fun hth => ?_, ?_, ?_⟩
  · by_cases hm : maxBytes ≤ 0 <;> simp [enforce_quota, hm, hth]
  · by_cases hm : maxBytes ≤ 0
    · simp [enforce_quota, enforceQuotaSpec, hm]
    · by_cases hth : 10 * st.bytesCtr ≤ 9 * maxBytes
      · simp [enforce_quota, enforceQuotaSpec, hm, hth]
      · simp only [enforce_quota, enforceQuotaSpec, if_neg hm, if_neg hth]
        exact enforce_quota_loop_no_locks root maxBytes _ _ st hlocks
  · exact List.sorted_insertionSort _ st.lru

theorem enforce_quota_matches_spec_witness :
    (({ bytesCtr := 5, lru := [("a", 3), ("b", 1)], dirKeys := ["a", "b"],
        locks := [], fs := [("/r/a", 3), ("/r/b", 2)] } : CacheState).locks = []) ∧
      enforce_quota "/r" 4
          { bytesCtr := 5, lru := [("a", 3), ("b", 1)], dirKeys := ["a", "b"],
            locks := [], fs := [("/r/a", 3), ("/r/b", 2)] }
        = enforceQuotaSpec "/r" 4
          { bytesCtr := 5, lru := [("a", 3), ("b", 1)], dirKeys := ["a", "b"],
            locks := [], fs := [("/r/a", 3), ("/r/b", 2)] } :=
  ⟨rfl,
    (enforce_quota_matches_spec "/r" 4
      { bytesCtr := 5, lru := [("a", 3), ("b", 1)], dirKeys := ["a", "b"],
        locks := [], fs := [("/r/a", 3), ("/r/b", 2)] } rfl).2.1⟩

/-- Embedding of `CacheService.register_directory` at time `t`: requires the directory to
exist; computes the relative path (see `get_relative_path`); silently accepts
an empty or "." relative path without tracking; otherwise sets the
`dir:<rel>` TTL marker, upserts the LRU score to now and adds the measured
on-disk size to the byte counter. -/
def register_directory (root : String) (t : Nat) (st : CacheState) (p : String) :
    Bool × CacheState :=
  if !(fsExists st.fs p) then (false, st)
  else
    let rel := get_relative_path root p
    if rel = "" ∨ rel = "." then (true, st)
    else
      let size := fsSize st.fs p
      (true, { st with
        dirKeys := rel :: st.dirKeys.filter (fun q => q ≠ rel)
        lru := (rel, t) :: st.lru.filter (fun q => q.1 ≠ rel)
        bytesCtr := st.bytesCtr + size })

/-- The quota scenario of the spec (§8): directory A of 2 GiB registered at
time 1, then directory B of 9 GiB registered at time 2, against the 10 GiB
default quota. -/
def scenario_state : CacheState :=
  (register_directory "/downloads" 2
    (register_directory "/downloads" 1
      { bytesCtr := 0, lru := [], dirKeys := [], locks := [],
        fs := [("/downloads/A", 2 * 1073741824), ("/downloads/B", 9 * 1073741824)] }
      "/downloads/A").2
    "/downloads/B").2

/-- C4 counterexample: in the scenario of the spec the claim says the next
`enforceQuota` call evicts only A and leaves B tracked; the code instead
continues because 9 GiB still exceeds the 8 GiB target, so the outcome
"one eviction, B still tracked" is false at this input. -/
theorem enforce_quota_scenario_counterexample :
    ¬ ((enforce_quota "/downloads" (10 * 1073741824) scenario_state).1 = 1 ∧
        (enforce_quota "/downloads" (10 * 1073741824) scenario_state).2.lru
          = [("B", 2)]) := by
  decide

/-- C4 amended: in the scenario, `enforce_quota` evicts A (the older entry)
first, but the total then stands at 9 GiB, still above the 8 GiB target, so
it also evicts B: two directories are removed and nothing remains tracked. -/
theorem enforce_quota_scenario_amended :
    (enforce_quota "/downloads" (10 * 1073741824) scenario_state).1 = 2 ∧
      (enforce_quota "/downloads" (10 * 1073741824) scenario_state).2.lru = [] ∧
      (enforce_quota "/downloads" (10 * 1073741824) scenario_state).2.bytesCtr = 0 :=
  ⟨rfl, rfl, rfl⟩

/-- C8 (behavior of the code at the failing input): `register_directory` on a
path that does not lie under the cache root does NOT reject it —
`_get_relative_path` swallows the `ValueError` and returns the absolute path,
which is then tracked: a TTL marker is set, an LRU entry is added under the
absolute path, and the byte counter is incremented.  This contradicts the
in-code comment "Validate that directory exists and is under downloads root"
and the statement of the spec that "paths outside the root are never tracked". -/
theorem register_out_of_root_is_tracked :
    register_directory "/data/downloads" 7
        { bytesCtr := 0, lru := [], dirKeys := [], locks := [],
          fs := [("/etc/outside", 512)] }
        "/etc/outside"
      = (true, { bytesCtr := 512, lru := [("/etc/outside", 7)],
                 dirKeys := ["/etc/outside"], locks := [],
                 fs := [("/etc/outside", 512)] }) := rfl

/-! ## Job lifecycle (`app/services/job_service.py`)

A job is created `running` with no exit code and a live worker process.
`cancel_job` terminates the process tree and sets the status to `cancelled`;
when the process has already exited, `psutil` raises `NoSuchProcess`, the
`except` swallows it, and nothing changes.  The background waiter fires once
when the process exits: it stores the exit code unconditionally
(`job.return_code = return_code`) and promotes the status to
`completed`/`failed` only when the job is not already `cancelled`. -/

inductive JobStatus where
  | running
  | completed
  | failed
  | cancelled
deriving DecidableEq

structure JobState where
  status : JobStatus
  return_code : Option Int
  procAlive : Bool
deriving DecidableEq

def initialJob : JobState :=
  { status := JobStatus.running, return_code := none, procAlive := true }

inductive JobEvent where
  | cancel
  | exits (rc : Int)

/-- One lifecycle event (see the section comment). -/
def jobStep (j : JobState) (e : JobEvent) : JobState :=
  match e with
  | JobEvent.cancel => if j.procAlive then { j with status := JobStatus.cancelled } else j
  | JobEvent.exits rc =>
      if j.procAlive then
        { status :=
            if j.status = JobStatus.cancelled then j.status
            else if rc = 0 then JobStatus.completed else JobStatus.failed
          return_code := some rc
          procAlive := false }
      else j

/-- The job state after a sequence of lifecycle events. -/
def jobRun (tr : List JobEvent) : JobState := tr.foldl jobStep initialJob

/-- The lifecycle invariant the code actually maintains: the exit code is
present exactly when the worker process has exited; `running` implies a live
process; `completed`/`failed` imply an exited one. -/
def jobInvariant (j : JobState) : Prop :=
  (j.return_code.isSome ↔ j.procAlive = false) ∧
    (j.status = JobStatus.running → j.procAlive = true) ∧
    ((j.status = JobStatus.completed ∨ j.status = JobStatus.failed) → j.procAlive = false)

theorem jobInvariant_step (j : JobState) (e : JobEvent) (h : jobInvariant j) :
    jobInvariant (jobStep j e) := by
  obtain ⟨h1, h2, h3⟩ := h
  cases e with
  | cancel =>
      by_cases hp : j.procAlive
      · simp_all [jobStep, jobInvariant]
      · have hstep : jobStep j JobEvent.cancel = j := by simp [jobStep, hp]
        rw [hstep]
        exact ⟨h1, h2, h3⟩
  | exits rc =>
      by_cases hp : j.procAlive
      · by_cases hc : j.status = JobStatus.cancelled
        · simp_all [jobStep, jobInvariant]
        · by_cases hrc : rc = 0 <;> simp_all [jobStep, jobInvariant]
      · have hstep : jobStep j (JobEvent.exits rc) = j := by simp [jobStep, hp]
        rw [hstep]
        exact ⟨h1, h2, h3⟩

theorem jobInvariant_run (tr : List JobEvent) : jobInvariant (jobRun tr) := by
  have haux : ∀ (l : List JobEvent) (j : JobState), jobInvariant j →
      jobInvariant (l.foldl jobStep j) := by
    intro l
    induction l with
    | nil => intro j h; exact h
    | cons e rest ih => intro j h; exact ih (jobStep j e) (jobInvariant_step j e h)
  exact haux tr initialJob (by simp [jobInvariant, initialJob])

/-- C6 counterexample: cancel a running job, then its terminated process
exits (code 143,  SIGTERM): the waiter stores the exit code even though the
status stays `cancelled`, so "exit code set iff status ∈ {completed, failed}"
fails — a cancelled job does carry an exit code. -/
theorem job_exit_code_counterexample :
    (jobRun [JobEvent.cancel, JobEvent.exits 143]).status = JobStatus.cancelled ∧
      (jobRun [JobEvent.cancel, JobEvent.exits 143]).return_code = some 143 ∧
      ¬ ((jobRun [JobEvent.cancel, JobEvent.exits 143]).return_code.isSome
          ↔ ((jobRun [JobEvent.cancel, JobEvent.exits 143]).status = JobStatus.completed
            ∨ (jobRun [JobEvent.cancel, JobEvent.exits 143]).status = JobStatus.failed)) := by
  decide

/-- C6 amended: at every point of the lifecycle the exit code is set if and
only if the worker process has exited; consequently a `completed` or `failed`
job has an exit code and a `running` job has none — but a `cancelled` job
whose terminated process has already exited also carries its exit code. -/
theorem job_exit_code_iff_process_exited (tr : List JobEvent) :
    ((jobRun tr).return_code.isSome ↔ (jobRun tr).procAlive = false) ∧
      (((jobRun tr).status = JobStatus.completed ∨ (jobRun tr).status = JobStatus.failed) →
        (jobRun tr).return_code.isSome) ∧
      ((jobRun tr).status = JobStatus.running → (jobRun tr).return_code = none) := by
  obtain ⟨h1, h2, h3⟩ := jobInvariant_run tr
  refine ⟨h1, fun hst => h1.mpr (h3 hst), fun hst => ?_⟩
  have := h2 hst
  cases hrc : (jobRun tr).return_code with
  | none => rfl
  | some v =>
      have : (jobRun tr).procAlive = false := h1.mp (by rw [hrc]; rfl)
      simp_all

theorem job_exit_code_iff_process_exited_witness :
    ((jobRun [JobEvent.exits 0]).status = JobStatus.completed
        ∨ (jobRun [JobEvent.exits 0]).status = JobStatus.failed) ∧
      (jobRun [JobEvent.exits 0]).return_code.isSome :=
  ⟨Or.inl (by decide),
    (job_exit_code_iff_process_exited [JobEvent.exits 0]).2.1 (Or.inl (by decide))⟩

/-! ## RedisJobStore.save_progress (`app/core/redis.py`) -/

/-- Replace the binding of `k` in an association list (first component is
the key), inserting it if absent. -/
def upsert {α : Type} (l : List (String × α)) (k : String) (v : α) :
    List (String × α) :=
  (k, v) :: l.filter (fun q => q.1 ≠ k)

abbrev ProgressData := List (String × String)

/-- The parts of `RedisJobStore` state that `save_progress` touches: the
local `_progress_cache`, the `_last_sync` map (milliseconds), and the
progress hash actually held by the shared store. -/
structure ProgressStore where
  progressCache : List (String × ProgressData)
  lastSync : List (String × Nat)
  redisProgress : List (String × ProgressData)
deriving DecidableEq

/-- Lookup `self._last_sync.get(job_id, 0)`. -/
def lookupSyncTime (l : List (String × Nat)) (k : String) : Nat :=
  match l.find? (fun q => q.1 = k) with
  | some q => q.2
  | none => 0

/-- Embedding of `RedisJobStore.save_progress` at clock instant `t` (milliseconds).
The method caches the snapshot locally and sets `_last_sync[job_id]` to the
current time, and only then compares the current time with
`_last_sync.get(job_id, 0)` — the entry it just wrote.  The two `time.time()`
reads happen back to back inside one call and are modelled as the same
instant `t`; the throttle window is 500 ms (`< 0.5` s). -/
def save_progress (ps : ProgressStore) (t : Nat) (jobId : String)
    (data : ProgressData) : Bool × ProgressStore :=
  let cache := upsert ps.progressCache jobId data
  let last := upsert ps.lastSync jobId t
  if t - lookupSyncTime last jobId < 500 then
    (true, { progressCache := cache, lastSync := last,
             redisProgress := ps.redisProgress })
  else
    (true, { progressCache := cache, lastSync := last,
             redisProgress := upsert ps.redisProgress jobId data })

/-- C7 (code behavior): `save_progress` never writes to the shared store.
`_last_sync[job_id]` is updated to the current time *before* the throttle
check reads it, so the check always sees an elapsed time of 0 ms < 500 ms and
returns having only updated the local cache — regardless of how much time
passed since the previous call.  The throttle of the spec (at most one write per
500 ms window, carrying the latest snapshot as of the end of the window) describes
the evident intent, but no store write ever occurs. -/
theorem save_progress_never_writes (ps : ProgressStore) (t : Nat)
    (jobId : String) (data : ProgressData) :
    (save_progress ps t jobId data).1 = true ∧
      ((save_progress ps t jobId data).2).redisProgress = ps.redisProgress ∧
      ((save_progress ps t jobId data).2).progressCache
        = upsert ps.progressCache jobId data := by
  have hl : lookupSyncTime (upsert ps.lastSync jobId t) jobId = t := by
    simp [lookupSyncTime, upsert]
  have hcond : t - lookupSyncTime (upsert ps.lastSync jobId t) jobId < 500 := by
    rw [hl]; omega
  simp [save_progress, hcond]

/-! ## Content keys (`DedupeService._generate_content_key`)

The code builds a dict of nine request-defining fields (`url` plus the six
boolean flags, which `options.get(..., False)` always fills, plus the two
optional search strings), drops `None`-valued entries, serializes it with
`json.dumps(..., sort_keys=True)` and returns `"content:" + md5(that string)`.
Since MD5 is a fixed deterministic function of its input string, two calls
return the same content key exactly when the serialized strings coincide;
the embedding therefore exposes the digest input `content_key_input`. -/

inductive JVal where
  | jb (b : Bool)
  | js (s : String)
deriving DecidableEq

structure DownloadOptions where
  url : String
  song : Bool
  atmos : Bool
  aac : Bool
  select : Bool
  all_album : Bool
  debug : Bool
  search_type : Option String
  search_term : Option String

/-- The normalized key material: the dict entries that survive the `None`
filter, listed in the order `json.dumps(..., sort_keys=True)` emits them —
the lexicographic key order "aac" < "all_album" < "atmos" < "debug"
< "search_term" < "search_type" < "select" < "song" < "url".  The six
boolean entries are always present; the two search entries only when the
field is not `None`. -/
def key_data (o : DownloadOptions) : List (String × JVal) :=
  [("aac", JVal.jb o.aac), ("all_album", JVal.jb o.all_album),
   ("atmos", JVal.jb o.atmos), ("debug", JVal.jb o.debug)]
  ++ (match o.search_term with
      | some s => [("search_term", JVal.js s)]
      | none => [])
  ++ (match o.search_type with
      | some s => [("search_type", JVal.js s)]
      | none => [])
  ++ [("select", JVal.jb o.select), ("song", JVal.jb o.song),
      ("url", JVal.js o.url)]

/-- JSON string-body escaping (backslash and quote; the control-character
escapes of `json.dumps` are irrelevant to the equality claims). -/
def escapeJsonChars : List Char → List Char
  | [] => []
  | c :: rest =>
      if c = '\\' then '\\' :: '\\' :: escapeJsonChars rest
      else if c = '"' then '\\' :: '"' :: escapeJsonChars rest
      else c :: escapeJsonChars rest

def jsonString (s : String) : String :=
  "\"" ++ String.mk (escapeJsonChars s.data) ++ "\""

def jsonOfVal : JVal → String
  | JVal.jb true => "true"
  | JVal.jb false => "false"
  | JVal.js s => jsonString s

/-- Serialization as by `json.dumps` of a string-keyed dict, given its entries in emission
order (default separators: item separator ", ", key separator ": "). -/
def key_string (l : List (String × JVal)) : String :=
  "\x7b"
    ++ String.intercalate ", " (l.map (fun p => jsonString p.1 ++ ": " ++ jsonOfVal p.2))
    ++ "\x7d"

/-- The string `_generate_content_key` feeds to MD5; the returned key is
`"content:" ++ md5hex(content_key_input o)`. -/
def content_key_input (o : DownloadOptions) : String :=
  key_string (key_data o)

/-- Position of each request-defining field name in sorted key order. -/
def keyIndex (s : String) : Nat :=
  if s = "aac" then 0 else if s = "all_album" then 1
  else if s = "atmos" then 2 else if s = "debug" then 3
  else if s = "search_term" then 4 else if s = "search_type" then 5
  else if s = "select" then 6 else if s = "song" then 7
  else if s = "url" then 8 else 9

theorem key_data_pairwise (o : DownloadOptions) :
    (key_data o).Pairwise (fun a b => keyIndex a.1 < keyIndex b.1) := by
  have h : ((key_data o).map (fun p => keyIndex p.1)).Pairwise (· < ·) := by
    cases hterm : o.search_term <;> cases htype : o.search_type <;>
      simp [key_data, hterm, htype, keyIndex]
  exact (List.pairwise_map).mp h

theorem key_data_nodup (o : DownloadOptions) : (key_data o).Nodup := by
  refine (key_data_pairwise o).imp ?_
  intro a b hab heq
  rw [heq] at hab
  exact lt_irrefl _ hab

instance : IsAntisymm (String × JVal) (fun a b => keyIndex a.1 < keyIndex b.1) :=
  ⟨fun _ _ h1 h2 => (Nat.lt_asymm h1 h2).elim⟩

/-- C5: two requests whose normalized request-defining field sets (target
identifier plus option flags, `None`-valued fields excluded) are equal *as
sets* — regardless of the order the fields were supplied in — produce the
identical serialized key material, hence (MD5 being a function of it) the
identical content key: the key is a deterministic function of the
normalized set. -/
theorem content_key_deterministic (o1 o2 : DownloadOptions)
    (h : ∀ p : String × JVal, p ∈ key_data o1 ↔ p ∈ key_data o2) :
    content_key_input o1 = content_key_input o2 := by
  have hperm : (key_data o1).Perm (key_data o2) :=
    (List.perm_ext_iff_of_nodup (key_data_nodup o1) (key_data_nodup o2)).mpr h
  have heq : key_data o1 = key_data o2 :=
    List.eq_of_perm_of_sorted hperm (key_data_pairwise o1) (key_data_pairwise o2)
  rw [content_key_input, heq, content_key_input]

theorem content_key_deterministic_witness :
    content_key_input
        { url := "https://music.example/album/1", song := true, atmos := false,
          aac := false, select := false, all_album := false, debug := false,
          search_type := none, search_term := none }
      = content_key_input
        { url := "https://music.example/album/1", song := true, atmos := false,
          aac := false, select := false, all_album := false, debug := false,
          search_type := none, search_term := none } :=
  content_key_deterministic _ _ (fun _ => Iff.rfl)

/-! ## DownloadService.start_download under interleaving (C9)

`start_download` performs, in order: (1) `get_existing_job(content_key)` —
returning the existing job id if present; (2) otherwise `start_job(args)`,
which spawns the worker process; (3) `acquire_lock`, whose first shared-store
operation is the `SETNX` on the lock key and whose success path then runs
`EXPIRE` + `SETEX` on the job mapping; (4) if the `SETNX` lost, a second
`get_existing_job` — cancelling the freshly spawned job and returning the
existing id when it finds one, and returning its *own* job id when it finds
none.  Two concurrent calls with the same content key are modelled as two
callers of atomic steps over the shared state, one step per shared-store
round-trip (the spawn is merged into the step of the check that precedes it,
as no shared-store access separates them); the whole run happens within one
lock TTL, at clock instant 0. -/

structure DlSystem where
  kv : KVStore
  runningWorkers : List String
deriving DecidableEq

inductive CallerPhase where
  | checking
  | trylock
  | settingMapping
  | rechecking
  | finished (result : String)
deriving DecidableEq

structure CallerState where
  jobId : String
  phase : CallerPhase
deriving DecidableEq

/-- One atomic step of a `start_download` caller (see the section comment). -/
def callerStep (k : String) (sys : DlSystem) (c : CallerState) :
    DlSystem × CallerState :=
  match c.phase with
  | CallerPhase.checking =>
      match get_existing_job true sys.kv 0 k with
      | some jid => (sys, { c with phase := CallerPhase.finished jid })
      | none =>
          ({ sys with runningWorkers := sys.runningWorkers ++ [c.jobId] },
           { c with phase := CallerPhase.trylock })
  | CallerPhase.trylock =>
      match kvSetnx sys.kv 0 (lockKeyOf k) c.jobId with
      | (true, kv') =>
          ({ sys with kv := kv' }, { c with phase := CallerPhase.settingMapping })
      | (false, _) => (sys, { c with phase := CallerPhase.rechecking })
  | CallerPhase.settingMapping =>
      let kv1 := kvExpire sys.kv 0 (lockKeyOf k) DEDUPE_LOCK_TTL
      let kv2 := kvSetex kv1 0 (jobKeyOf k) DEDUPE_LOCK_TTL c.jobId
      ({ sys with kv := kv2 }, { c with phase := CallerPhase.finished c.jobId })
  | CallerPhase.rechecking =>
      match get_existing_job true sys.kv 0 k with
      | some jid =>
          ({ sys with runningWorkers := sys.runningWorkers.filter (fun w => w ≠ c.jobId) },
           { c with phase := CallerPhase.finished jid })
      | none => (sys, { c with phase := CallerPhase.finished c.jobId })
  | CallerPhase.finished _ => (sys, c)

structure TwoCallers where
  sys : DlSystem
  a : CallerState
  b : CallerState
deriving DecidableEq

/-- Dispatch one step to caller `a` (`true`) or caller `b` (`false`). -/
def twoStep (k : String) (st : TwoCallers) (who : Bool) : TwoCallers :=
  if who then
    let r := callerStep k st.sys st.a
    ⟨r.1, r.2, st.b⟩
  else
    let r := callerStep k st.sys st.b
    ⟨r.1, st.a, r.2⟩

/-- Run both callers under an explicit interleaving schedule. -/
def runSchedule (k : String) (init : TwoCallers) (sched : List Bool) : TwoCallers :=
  sched.foldl (twoStep k) init

/-- Both callers about to start, clean shared state, no workers running. -/
def initialTwoCallers (jA jB : String) : TwoCallers :=
  ⟨⟨[], []⟩, ⟨jA, CallerPhase.checking⟩, ⟨jB, CallerPhase.checking⟩⟩

/-- C9 counterexample: under the interleaving in which the losing
re-check lands in the window between the `SETNX` of caller A on the lock key and
the `SETEX` by A of the job mapping, the second `get_existing_job` of B finds nothing,
so B keeps its own freshly spawned job: the run ends with TWO workers
running and the callers observing different job ids, refuting "exactly one
worker ends up running and both callers observe the same job id". -/
theorem start_download_race_counterexample :
    ((runSchedule "k" (initialTwoCallers "jobA" "jobB")
          [true, false, true, false, false, true]).sys.runningWorkers
        = ["jobA", "jobB"]) ∧
      (runSchedule "k" (initialTwoCallers "jobA" "jobB")
          [true, false, true, false, false, true]).a.phase
        = CallerPhase.finished "jobA" ∧
      (runSchedule "k" (initialTwoCallers "jobA" "jobB")
          [true, false, true, false, false, true]).b.phase
        = CallerPhase.finished "jobB" := by
  decide

/-- C9 amended: when the two calls do not overlap — the second caller starts
after the first has finished (schedule: A runs its three steps to completion,
then B checks) — exactly one worker process ends up running and both callers
observe the job id of the first caller.  Under arbitrary interleaving the
guarantee can fail (see the counterexample window between `SETNX` and
`SETEX`). -/
theorem start_download_sequential_dedupe (k jA jB : String) :
    ((runSchedule k (initialTwoCallers jA jB) [true, true, true, false]).sys.runningWorkers
        = [jA]) ∧
      (runSchedule k (initialTwoCallers jA jB) [true, true, true, false]).a.phase
        = CallerPhase.finished jA ∧
      (runSchedule k (initialTwoCallers jA jB) [true, true, true, false]).b.phase
        = CallerPhase.finished jA := by
  have h1 : twoStep k (initialTwoCallers jA jB) true
      = ⟨⟨[], [jA]⟩, ⟨jA, CallerPhase.trylock⟩, ⟨jB, CallerPhase.checking⟩⟩ := rfl
  have h2 : twoStep k ⟨⟨[], [jA]⟩, ⟨jA, CallerPhase.trylock⟩, ⟨jB, CallerPhase.checking⟩⟩ true
      = ⟨⟨[(lockKeyOf k, jA, none)], [jA]⟩, ⟨jA, CallerPhase.settingMapping⟩,
         ⟨jB, CallerPhase.checking⟩⟩ := rfl
  have hget : kvGet [(lockKeyOf k, jA, none)] 0 (lockKeyOf k) = some jA := by
    simp [kvGet, kvFind]
  have h3 : twoStep k ⟨⟨[(lockKeyOf k, jA, none)], [jA]⟩,
        ⟨jA, CallerPhase.settingMapping⟩, ⟨jB, CallerPhase.checking⟩⟩ true
      = ⟨⟨kvSetex (kvSet [(lockKeyOf k, jA, none)] (lockKeyOf k) jA
            (some (0 + DEDUPE_LOCK_TTL))) 0 (jobKeyOf k) DEDUPE_LOCK_TTL jA, [jA]⟩,
         ⟨jA, CallerPhase.finished jA⟩, ⟨jB, CallerPhase.checking⟩⟩ := by
    simp only [twoStep, if_true, callerStep, kvExpire, hget]
  have hget2 : get_existing_job true
      (kvSetex (kvSet [(lockKeyOf k, jA, none)] (lockKeyOf k) jA
          (some (0 + DEDUPE_LOCK_TTL))) 0 (jobKeyOf k) DEDUPE_LOCK_TTL jA) 0 k
      = some jA := by
    simp only [get_existing_job, kvSetex, Bool.not_true, Bool.false_eq_true, if_false]
    rw [kvGet_set_self]
    simp [DEDUPE_LOCK_TTL]
  have h4 : twoStep k ⟨⟨kvSetex (kvSet [(lockKeyOf k, jA, none)] (lockKeyOf k) jA
          (some (0 + DEDUPE_LOCK_TTL))) 0 (jobKeyOf k) DEDUPE_LOCK_TTL jA, [jA]⟩,
        ⟨jA, CallerPhase.finished jA⟩, ⟨jB, CallerPhase.checking⟩⟩ false
      = ⟨⟨kvSetex (kvSet [(lockKeyOf k, jA, none)] (lockKeyOf k) jA
            (some (0 + DEDUPE_LOCK_TTL))) 0 (jobKeyOf k) DEDUPE_LOCK_TTL jA, [jA]⟩,
         ⟨jA, CallerPhase.finished jA⟩, ⟨jB, CallerPhase.finished jA⟩⟩ := by
    simp only [twoStep, Bool.false_eq_true, if_false, callerStep, hget2]
  have hrun : runSchedule k (initialTwoCallers jA jB) [true, true, true, false]
      = ⟨⟨kvSetex (kvSet [(lockKeyOf k, jA, none)] (lockKeyOf k) jA
            (some (0 + DEDUPE_LOCK_TTL))) 0 (jobKeyOf k) DEDUPE_LOCK_TTL jA, [jA]⟩,
         ⟨jA, CallerPhase.finished jA⟩, ⟨jB, CallerPhase.finished jA⟩⟩ := by
    simp only [runSchedule, List.foldl]
    rw [h1, h2, h3, h4]
  rw [hrun]
  exact ⟨rfl, rfl, rfl⟩

end MusicBE
